import Mathlib

/-!
Verification development for the resource-management dashboard's
pagination / optimistic-cache-update core.

Shallow embedding conventions:
* Opaque unique string ids are modelled as `Nat` tokens — the code only ever
  compares ids for equality (the database supplies the `orderBy id asc`
  ordering, which we model by taking the database as an already-ordered
  list of rows).
* ISO timestamp strings are modelled as `Nat` clock values; the code only
  ever writes a fresh "now" into them.
* TypeScript floating-point payload fields (`cpuUtilization`,
  `memoryUtilization`, `costPerHour`) are modelled as `Rat`; no modelled
  operation performs arithmetic on them — they are carried verbatim.
-/

/-- Resource status enumeration, from `src/src/types/resources.ts`
(`ResourceStatus`). -/
inductive ResourceStatus
  | ACTIVE
  | IDLE
  | OVERLOADED
  | MAINTENANCE
  | DECOMMISSIONED
deriving DecidableEq, Repr

/-- Resource category tag, from `src/src/types/resources.ts`
(`Resource.type`: 'COMPUTE' | 'STORAGE' | 'NETWORK' | 'DATABASE' | 'CDN' |
'CONTAINER'). -/
inductive ResourceType
  | COMPUTE
  | STORAGE
  | NETWORK
  | DATABASE
  | CDN
  | CONTAINER
deriving DecidableEq, Repr

/-- Hosting provider, from `src/src/types/resources.ts`
(`Resource.provider`: 'AWS' | 'GCP' | 'Azure' | 'On-Premise'). -/
inductive Provider
  | AWS
  | GCP
  | Azure
  | OnPremise
deriving DecidableEq, Repr

/-- Owning department, from `src/src/types/index.ts` (`Department`, 8 values). -/
inductive Department
  | ENGINEERING
  | DESIGN
  | PRODUCT
  | DATA_SCIENCE
  | DEVOPS
  | QA
  | SECURITY
  | MANAGEMENT
deriving DecidableEq, Repr

/-- The `Resource` entity, from `src/src/types/resources.ts`.  String ids are
modelled as `Nat` tokens and ISO timestamps as `Nat` clock values (see the
file header). -/
structure Resource where
  id : Nat
  name : String
  type : ResourceType
  status : ResourceStatus
  region : String
  provider : Provider
  cpuUtilization : Rat
  memoryUtilization : Rat
  costPerHour : Rat
  tags : List String
  department : Department
  lastHealthCheck : Nat
  createdAt : Nat
  updatedAt : Nat
deriving DecidableEq, Repr

/-- Shape of the paginated list endpoint's 200 response body, from
`src/api/_routes/users/me.ts` lines 58-63 (and mirrored client-side as
`ResourcePage` in `useInfiniteResources.ts`).  Parametric in the row type `ρ`
and the id type `ι` because the handler treats rows opaquely except for
reading `.id`. -/
structure ListResponse (ρ ι : Type) where
  data : List ρ
  nextCursor : Option ι
  totalCount : Nat
  hasMore : Bool
deriving DecidableEq, Repr

/-- Prisma `findMany` with `orderBy: { id: 'asc' }`, optional
`cursor: { id: c }` with `skip: 1`, and `take tk`, from
`src/api/_routes/users/me.ts` lines 31-42.  The database `db` is the ordered
row list; with a cursor, Prisma positions at the row whose id is `c` and
`skip: 1` excludes that row itself. -/
def findMany {ρ ι : Type} [DecidableEq ι] (rid : ρ → ι) (db : List ρ)
    (cursor : Option ι) (tk : Nat) : List ρ :=
  match cursor with
  | none => db.take tk
  | some c => ((db.dropWhile (fun r => rid r != c)).drop 1).take tk

/-- The GET list handler's successful (200) path, from
`src/api/_routes/users/me.ts` lines 27-65: `take = limit + 1` fetches one
extra row; if exactly `take` rows come back, the extra row is popped
(`resources.pop()`) — the returned `data` is everything but the last fetched
row, and `nextCursor` is the id of that popped row.  `hasMore` is
`nextCursor !== null` and `totalCount` is a full count of the table. -/
def listHandler {ρ ι : Type} [DecidableEq ι] (rid : ρ → ι) (db : List ρ)
    (cursor : Option ι) (limit : Nat) : ListResponse ρ ι :=
  let tk := limit + 1
  let resources := findMany rid db cursor tk
  if resources.length = tk then
    { data := resources.dropLast
      nextCursor := resources.getLast?.map rid
      totalCount := db.length
      hasMore := (resources.getLast?.map rid).isSome }
  else
    { data := resources
      nextCursor := none
      totalCount := db.length
      hasMore := false }

/-- Driving the pagination as the client does
(`useInfiniteResources.ts`): each call queries the endpoint with the
previous response's cursor (`getNextPageParam: (lastPage) =>
lastPage.nextCursor ?? undefined`, line 96) and stops — issuing no further
call — once `nextCursor` is null (equivalently `hasMore` is false, since the
server sets `hasMore := nextCursor !== null`).  Returns
(number of calls made, all returned rows concatenated in call order, the
final response's `hasMore`).  `fuel` bounds the recursion; every lemma below
supplies enough fuel that it never runs out (a fuel-exhausted run returns
`true` in the last component, which no terminating run does). -/
def driveFrom {ρ ι : Type} [DecidableEq ι] (rid : ρ → ι) (db : List ρ)
    (limit : Nat) : Nat → Option ι → Nat × List ρ × Bool
  | 0, _ => (0, [], true)
  | fuel + 1, cursor =>
    let resp := listHandler rid db cursor limit
    match resp.nextCursor with
    | none => (1, resp.data, resp.hasMore)
    | some c =>
      let rest := driveFrom rid db limit fuel (some c)
      (rest.1 + 1, resp.data ++ rest.2.1, rest.2.2)

/-- Abstract view of the same drive in terms of the still-unserved suffix of
the database: a step either serves the remaining suffix whole (fewer than
`limit + 1` rows left) or serves `limit` rows and drops one — the row whose
id becomes the cursor is then skipped by the next query's `skip: 1`. -/
def driveSuffix {ρ : Type} (limit : Nat) : Nat → List ρ → Nat × List ρ × Bool
  | 0, _ => (0, [], true)
  | fuel + 1, suffix =>
    if suffix.length < limit + 1 then (1, suffix, false)
    else
      let rest := driveSuffix limit fuel (suffix.drop (limit + 1))
      (rest.1 + 1, suffix.take limit ++ rest.2.1, rest.2.2)

/-! ### Pagination lemmas -/

lemma dropWhile_ne_key {ρ ι : Type} [DecidableEq ι] (rid : ρ → ι) (c : ρ)
    (pre post : List ρ) (hpre : ∀ x ∈ pre, rid x ≠ rid c) :
    (pre ++ c :: post).dropWhile (fun r => rid r != rid c) = c :: post := by
  induction pre with
  | nil => simp [List.dropWhile_cons]
  | cons a l ih =>
    have ha : (rid a != rid c) = true := bne_iff_ne.mpr (hpre a (by simp))
    rw [List.cons_append, List.dropWhile_cons, if_pos ha]
    exact ih (fun x hx => hpre x (by simp [hx]))

lemma findMany_cursor_at {ρ ι : Type} [DecidableEq ι] (rid : ρ → ι) (db : List ρ)
    (hnd : (db.map rid).Nodup) (j : Nat) (hj : j < db.length) (tk : Nat) :
    findMany rid db (some (rid db[j])) tk = (db.drop (j + 1)).take tk := by
  simp only [findMany]
  set c := db[j] with hc
  have hdecomp : db = db.take j ++ c :: db.drop (j + 1) := by
    conv_lhs => rw [← List.take_append_drop j db]
    rw [List.drop_eq_getElem_cons hj, ← hc]
  have hpre : ∀ x ∈ db.take j, rid x ≠ rid c := by
    intro x hx heq
    have hmap : (List.map rid (db.take j) ++
        rid c :: List.map rid (db.drop (j + 1))).Nodup := by
      rw [← List.map_cons, ← List.map_append, ← hdecomp]; exact hnd
    have hdisj := (List.nodup_append.mp hmap).2.2
    have hmem₁ : rid c ∈ List.map rid (db.take j) :=
      heq ▸ List.mem_map_of_mem rid hx
    exact hdisj hmem₁ (List.mem_cons_self _ _)
  conv_lhs => rw [hdecomp]
  rw [dropWhile_ne_key rid c _ _ hpre]
  simp

lemma listHandler_short {ρ ι : Type} [DecidableEq ι] (rid : ρ → ι) (db : List ρ)
    (cursor : Option ι) (limit k : Nat)
    (hserve : ∀ tk, findMany rid db cursor tk = (db.drop k).take tk)
    (hlt : (db.drop k).length < limit + 1) :
    listHandler rid db cursor limit =
      { data := db.drop k, nextCursor := none, totalCount := db.length,
        hasMore := false } := by
  have h1 : findMany rid db cursor (limit + 1) = db.drop k := by
    rw [hserve]; exact List.take_of_length_le (by omega)
  simp only [listHandler, h1]
  rw [if_neg (by omega)]

lemma listHandler_long {ρ ι : Type} [DecidableEq ι] (rid : ρ → ι) (db : List ρ)
    (cursor : Option ι) (limit k : Nat)
    (hserve : ∀ tk, findMany rid db cursor tk = (db.drop k).take tk)
    (hge : limit + 1 ≤ (db.drop k).length) :
    listHandler rid db cursor limit =
      { data := (db.drop k).take limit
        nextCursor := ((db.drop k)[limit]?).map rid
        totalCount := db.length
        hasMore := true } := by
  have h1 : findMany rid db cursor (limit + 1) = (db.drop k).take (limit + 1) :=
    hserve _
  have hlen : ((db.drop k).take (limit + 1)).length = limit + 1 := by
    rw [List.length_take]; omega
  have hlast : ((db.drop k).take (limit + 1)).getLast? = (db.drop k)[limit]? := by
    rw [List.getLast?_eq_getElem?, hlen, Nat.add_sub_cancel, List.getElem?_take]
    rw [if_pos (by omega)]
  have hsome : (db.drop k)[limit]? = some ((db.drop k).get ⟨limit, by omega⟩) :=
    List.getElem?_eq_getElem (by omega)
  simp only [listHandler, h1]
  rw [if_pos hlen]
  have hdata : ((db.drop k).take (limit + 1)).dropLast = (db.drop k).take limit := by
    rw [List.dropLast_eq_take, hlen, Nat.add_sub_cancel, List.take_take]
    congr 1
    omega
  rw [hdata, hlast, hsome]
  rfl

lemma driveFrom_eq_driveSuffix {ρ ι : Type} [DecidableEq ι] (rid : ρ → ι)
    (db : List ρ) (limit : Nat) (hnd : (db.map rid).Nodup) :
    ∀ fuel k cursor, (∀ tk, findMany rid db cursor tk = (db.drop k).take tk) →
      driveFrom rid db limit fuel cursor = driveSuffix limit fuel (db.drop k) := by
  intro fuel
  induction fuel with
  | zero => intro k cursor _; rfl
  | succ fuel ih =>
    intro k cursor hserve
    by_cases hlt : (db.drop k).length < limit + 1
    · have hresp := listHandler_short rid db cursor limit k hserve hlt
      simp only [driveFrom, driveSuffix, hresp, if_pos hlt]
    · push_neg at hlt
      have hresp := listHandler_long rid db cursor limit k hserve hlt
      have hlim : limit < (db.drop k).length := by omega
      have hklim : k + limit < db.length := by
        have := List.length_drop k db
        omega
      have hidx : (db.drop k)[limit]? = some db[k + limit] := by
        rw [List.getElem?_eq_getElem hlim, List.getElem_drop]
      have hserve' : ∀ tk, findMany rid db (some (rid db[k + limit])) tk
          = (db.drop (k + limit + 1)).take tk :=
        findMany_cursor_at rid db hnd (k + limit) hklim
      have hdrop : db.drop (k + limit + 1) = (db.drop k).drop (limit + 1) := by
        rw [List.drop_drop, Nat.add_assoc]
      have hrest := ih (k + limit + 1) (some (rid db[k + limit])) hserve'
      rw [hdrop] at hrest
      simp only [driveFrom, driveSuffix, hresp, hidx, if_neg (by omega :
        ¬ (db.drop k).length < limit + 1)]
      simp only [Option.map_some']
      rw [hrest]

lemma driveSuffix_spec {ρ : Type} (limit : Nat) :
    ∀ fuel (suffix : List ρ), suffix.length / (limit + 1) < fuel →
      (driveSuffix limit fuel suffix).1 = suffix.length / (limit + 1) + 1 ∧
      (driveSuffix limit fuel suffix).2.1.length
        = suffix.length - suffix.length / (limit + 1) ∧
      (driveSuffix limit fuel suffix).2.2 = false := by
  intro fuel
  induction fuel with
  | zero => intro suffix h; exact absurd h (Nat.not_lt_zero _)
  | succ fuel ih =>
    intro suffix hfuel
    by_cases hlt : suffix.length < limit + 1
    · have hq : suffix.length / (limit + 1) = 0 := Nat.div_eq_of_lt hlt
      simp [driveSuffix, if_pos hlt, hq]
    · push_neg at hlt
      have hq : suffix.length / (limit + 1)
          = (suffix.length - (limit + 1)) / (limit + 1) + 1 :=
        Nat.div_eq_sub_div (by omega) hlt
      have hlen' : (suffix.drop (limit + 1)).length = suffix.length - (limit + 1) :=
        List.length_drop _ _
      obtain ⟨h1, h2, h3⟩ := ih (suffix.drop (limit + 1)) (by rw [hlen']; omega)
      rw [hlen'] at h1 h2
      have hqle : (suffix.length - (limit + 1)) / (limit + 1)
          ≤ suffix.length - (limit + 1) := Nat.div_le_self _ _
      simp only [driveSuffix, if_neg (by omega : ¬ suffix.length < limit + 1)]
      refine ⟨by rw [h1]; omega, ?_, h3⟩
      rw [List.length_append, List.length_take, h2]
      have hmin : min limit suffix.length = limit := min_eq_left (by omega)
      omega

/-! ### Concrete data sources -/

/-- A concrete resource row with a given id (all payload fields fixed); the
handler and the pagination driver never read anything but `id`. -/
def mkRes (i : Nat) : Resource :=
  { id := i
    name := "resource"
    type := ResourceType.COMPUTE
    status := ResourceStatus.ACTIVE
    region := "us-east-1"
    provider := Provider.AWS
    cpuUtilization := 0
    memoryUtilization := 0
    costPerHour := 0
    tags := []
    department := Department.ENGINEERING
    lastHealthCheck := 0
    createdAt := 0
    updatedAt := 0 }

/-- A data source of `n` resources with distinct ids `0, …, n-1`, in the
server's `orderBy id asc` order. -/
def seedDb (n : Nat) : List Resource := (List.range n).map mkRes

lemma seedDb_map_id (n : Nat) : (seedDb n).map Resource.id = List.range n := by
  have h : Resource.id ∘ mkRes = id := rfl
  rw [seedDb, List.map_map, h, List.map_id]

lemma seedDb_length (n : Nat) : (seedDb n).length = n := by
  rw [seedDb, List.length_map, List.length_range]

lemma seedDb_nodup (n : Nat) : ((seedDb n).map Resource.id).Nodup := by
  rw [seedDb_map_id]; exact List.nodup_range n

/-- C1: for a data source of 10,247 resources and pageSize = 50, the first
call returns `hasMore = true` with 50 items — as the claim states — but
driving the pagination to exhaustion reaches `hasMore = false` after 201
calls with 10,047 accumulated items, not after ceil(10247/50) = 206 calls
with all 10,247 items: the combination of `nextCursor := id of the popped
extra row` with the next query's `skip: 1` silently drops one row at every
page boundary (200 of the 10,247 rows are never returned).  The driver
(`getNextPageParam`) issues no further call once `nextCursor` is null, i.e.
once `hasMore` is false. -/
theorem c1_paging_10247_divergence :
    ((listHandler Resource.id (seedDb 10247) none 50).hasMore = true ∧
      (listHandler Resource.id (seedDb 10247) none 50).data.length = 50) ∧
    (driveFrom Resource.id (seedDb 10247) 50 300 none).1 = 201 ∧
    (driveFrom Resource.id (seedDb 10247) 50 300 none).2.1.length = 10047 ∧
    (driveFrom Resource.id (seedDb 10247) 50 300 none).2.2 = false := by
  have hlen : (seedDb 10247).length = 10247 := seedDb_length _
  have hserve : ∀ tk, findMany Resource.id (seedDb 10247) none tk
      = ((seedDb 10247).drop 0).take tk := by
    intro tk; simp [findMany]
  constructor
  · have hge : 50 + 1 ≤ ((seedDb 10247).drop 0).length := by
      rw [List.drop_zero, hlen]; omega
    have hresp := listHandler_long Resource.id (seedDb 10247) none 50 0 hserve hge
    rw [hresp]
    refine ⟨rfl, ?_⟩
    dsimp only
    rw [List.drop_zero, List.length_take, hlen]
    omega
  · have heq := driveFrom_eq_driveSuffix Resource.id (seedDb 10247) 50
      (seedDb_nodup _) 300 0 none hserve
    rw [heq, List.drop_zero]
    have hfuel : (seedDb 10247).length / (50 + 1) < 300 := by rw [hlen]; norm_num
    obtain ⟨h1, h2, h3⟩ := driveSuffix_spec 50 300 (seedDb 10247) hfuel
    rw [hlen] at h1 h2
    refine ⟨by rw [h1], by rw [h2], h3⟩

/-- C2: the claim — `nextCursor` equals the id of the last row of the
returned `data` array, so no row is omitted — fails on the code.  With the
two-row source `[id 0, id 1]` and `limit = 1`, the handler fetches
`take = 2` rows, pops the extra one, and returns `data = [row 0]` with
`nextCursor = 1`: the id of the popped row (the first row of the *next*
page), not the id `0` of the last returned row.  Because the follow-up query
then skips the cursor row itself (`skip: 1`), the row with id 1 is never
delivered: exhausting the pagination returns only `[0]`. -/
theorem c2_nextCursor_divergence :
    (listHandler Resource.id (seedDb 2) none 1).hasMore = true ∧
    (listHandler Resource.id (seedDb 2) none 1).nextCursor = some 1 ∧
    (listHandler Resource.id (seedDb 2) none 1).data.map Resource.id = [0] ∧
    ((listHandler Resource.id (seedDb 2) none 1).data.getLast?.map Resource.id)
      = some 0 ∧
    (listHandler Resource.id (seedDb 2) none 1).nextCursor ≠ some 0 ∧
    (driveFrom Resource.id (seedDb 2) 1 5 none).2.1.map Resource.id = [0] ∧
    (driveFrom Resource.id (seedDb 2) 1 5 none).2.2 = false := by
  refine ⟨rfl, rfl, rfl, rfl, by decide, rfl, rfl⟩

/-! ### Limit parsing (`parseInt(req.query.limit) || 50`) -/

/-- Decimal-digit prefix of a character list, as JavaScript `parseInt` reads
it: leading digits are accumulated, everything from the first non-digit on
is ignored; no digits at all yields NaN (here `none`). -/
def parseDigits (cs : List Char) : Option Nat :=
  let ds := cs.takeWhile Char.isDigit
  if ds.isEmpty then none
  else some (ds.foldl (fun n c => n * 10 + (c.toNat - '0'.toNat)) 0)

/-- Hexadecimal digit test, as JavaScript `parseInt` accepts them in
radix 16 (`0-9`, `a-f`, `A-F`). -/
def isHexDigit (c : Char) : Bool :=
  c.isDigit || ('a' ≤ c && c ≤ 'f') || ('A' ≤ c && c ≤ 'F')

/-- Value of a hexadecimal digit. -/
def hexVal (c : Char) : Nat :=
  if c.isDigit then c.toNat - '0'.toNat
  else if 'a' ≤ c && c ≤ 'f' then c.toNat - 'a'.toNat + 10
  else c.toNat - 'A'.toNat + 10

/-- Hexadecimal-digit prefix of a character list: leading hex digits are
accumulated (radix 16), everything from the first non-hex-digit on is
ignored; no digits at all yields NaN (here `none`). -/
def parseHexDigits (cs : List Char) : Option Nat :=
  let ds := cs.takeWhile isHexDigit
  if ds.isEmpty then none
  else some (ds.foldl (fun n c => n * 16 + hexVal c) 0)

/-- The unsigned part of JavaScript `parseInt` with no radix argument: a
`0x`/`0X` prefix selects radix 16 (the prefix is stripped and hex digits are
read — a bare `0x` with no hex digit after it is NaN), otherwise leading
decimal digits are read. -/
def parseUnsigned (cs : List Char) : Option Nat :=
  match cs with
  | '0' :: 'x' :: rest => parseHexDigits rest
  | '0' :: 'X' :: rest => parseHexDigits rest
  | other => parseDigits other

/-- JavaScript `parseInt(s)` (no radix argument), as called by the handler
on the `limit` query value: leading whitespace is skipped, an optional
`+`/`-` sign is read, then either a `0x`/`0X`-prefixed hexadecimal literal
or leading decimal digits, with trailing garbage ignored; `none` models
NaN (no digits at all). -/
def jsParseInt (s : String) : Option Int :=
  match s.data.dropWhile Char.isWhitespace with
  | '-' :: cs => (parseUnsigned cs).map (fun n => -(n : Int))
  | '+' :: cs => (parseUnsigned cs).map (fun n => (n : Int))
  | cs => (parseUnsigned cs).map (fun n => (n : Int))

/-- Effective page size from `src/api/_routes/users/me.ts` line 28:
`const limit = parseInt(req.query.limit as string) || 50` — NaN (parameter
absent or non-numeric) and 0 are falsy, so both fall back to 50. -/
def effectiveLimit (limitParam : Option String) : Int :=
  match limitParam.bind jsParseInt with
  | some n => if n = 0 then 50 else n
  | none => 50

/-- The list endpoint including its query-parameter parsing.  A negative
parsed limit would reach Prisma as a negative `take` (take from the end of
the relation); no claim concerns that path, and this model clamps it via
`Int.toNat`. -/
def listEndpoint (db : List Resource) (cursor : Option Nat)
    (limitParam : Option String) : ListResponse Resource Nat :=
  listHandler Resource.id db cursor (effectiveLimit limitParam).toNat

lemma findMany_length_le {ρ ι : Type} [DecidableEq ι] (rid : ρ → ι)
    (db : List ρ) (cursor : Option ι) (tk : Nat) :
    (findMany rid db cursor tk).length ≤ tk := by
  cases cursor <;> exact List.length_take_le _ _

lemma listHandler_data_le {ρ ι : Type} [DecidableEq ι] (rid : ρ → ι)
    (db : List ρ) (cursor : Option ι) (limit : Nat) :
    (listHandler rid db cursor limit).data.length ≤ limit := by
  simp only [listHandler]
  by_cases h : (findMany rid db cursor (limit + 1)).length = limit + 1
  · rw [if_pos h]
    dsimp only
    rw [List.length_dropLast, h]
    omega
  · rw [if_neg h]
    dsimp only
    have := findMany_length_le rid db cursor (limit + 1)
    omega

/-- C10: for every GET request to the list endpoint whose `limit` query
parameter parses to a positive integer `L`, the 200 response's `data` array
holds at most `L` resources; when `limit` is absent, zero, or non-numeric
(`parseInt` yields NaN, which `|| 50` replaces, as it does 0), the endpoint
uses 50. -/
theorem c10_limit_parsing_cap (db : List Resource) (cursor : Option Nat)
    (p : Option String) (L : Int) (hL : (p.bind jsParseInt).getD 0 = L) :
    (0 < L → (listEndpoint db cursor p).data.length ≤ L.toNat) ∧
    (L = 0 → effectiveLimit p = 50 ∧ (listEndpoint db cursor p).data.length ≤ 50) := by
  constructor
  · intro hpos
    have hlim : effectiveLimit p = L := by
      unfold effectiveLimit
      cases hp : p.bind jsParseInt with
      | none =>
        rw [hp] at hL
        simp only [Option.getD] at hL
        omega
      | some n =>
        rw [hp] at hL
        simp only [Option.getD] at hL
        subst hL
        dsimp only
        rw [if_neg (by omega)]
    unfold listEndpoint
    rw [hlim]
    exact listHandler_data_le Resource.id db cursor L.toNat
  · intro h0
    have hlim : effectiveLimit p = 50 := by
      unfold effectiveLimit
      cases hp : p.bind jsParseInt with
      | none => rfl
      | some n =>
        rw [hp] at hL
        simp only [Option.getD] at hL
        subst hL
        dsimp only
        rw [if_pos h0]
    refine ⟨hlim, ?_⟩
    unfold listEndpoint
    rw [hlim]
    exact listHandler_data_le Resource.id db cursor (50 : Int).toNat

/-- Witness for C10 at the concrete request `limit = " 0x10"` (leading
whitespace, hexadecimal literal — `parseInt` reads 16) against a 3-row
source. -/
theorem c10_limit_parsing_cap_witness :
    (((some " 0x10" : Option String).bind jsParseInt).getD 0 = (16 : Int)) ∧
    ((0 < (16 : Int) →
        (listEndpoint (seedDb 3) none (some " 0x10")).data.length
          ≤ (16 : Int).toNat) ∧
      ((16 : Int) = 0 → effectiveLimit (some " 0x10") = 50 ∧
        (listEndpoint (seedDb 3) none (some " 0x10")).data.length ≤ 50)) :=
  ⟨by decide,
    c10_limit_parsing_cap (seedDb 3) none (some " 0x10") 16 (by decide)⟩

/-! ### Client-side cache model (TanStack Query client as used by
`src/src/features/resources/hooks/useResources.ts`) -/

/-- Shape of the `X | 'ALL'` filter unions in `TableFilters`
(`src/src/types/index.ts`). -/
inductive FilterValue (α : Type)
  | ALL
  | only (a : α)
deriving DecidableEq, Repr

/-- The `dateRange` sub-object of `TableFilters`; `from`/`to` are reserved
words in Lean and appear as `rangeFrom`/`rangeTo`. -/
structure DateRange where
  rangeFrom : Option String
  rangeTo : Option String
deriving DecidableEq, Repr

/-- Table filters, from `src/src/types/index.ts` (`TableFilters`). -/
structure TableFilters where
  search : String
  status : FilterValue ResourceStatus
  department : FilterValue Department
  provider : FilterValue Provider
  dateRange : DateRange
deriving DecidableEq, Repr

/-- One segment of a TanStack Query key array: the keys built by
`resourceKeys` mix string literals, a `TableFilters` object, a string id
(here a `Nat` token) and — for the infinite list — a numeric page size. -/
inductive KeySeg
  | str (s : String)
  | filters (f : TableFilters)
  | num (n : Nat)
deriving DecidableEq, Repr

/-- A query key is an array of segments. -/
abbrev QueryKey := List KeySeg

/-- Query key factory, from `useResources.ts` lines 29-35
(`resourceKeys`). -/
def resourceKeys.all : QueryKey := [KeySeg.str "resources"]

/-- `resourceKeys.lists()` = `[...all, 'list']`. -/
def resourceKeys.lists : QueryKey := resourceKeys.all ++ [KeySeg.str "list"]

/-- `resourceKeys.list(filters)` = `[...lists(), filters]`. -/
def resourceKeys.list (f : TableFilters) : QueryKey :=
  resourceKeys.lists ++ [KeySeg.filters f]

/-- `resourceKeys.details()` = `[...all, 'detail']`. -/
def resourceKeys.details : QueryKey := resourceKeys.all ++ [KeySeg.str "detail"]

/-- `resourceKeys.detail(id)` = `[...details(), id]`. -/
def resourceKeys.detail (i : Nat) : QueryKey :=
  resourceKeys.details ++ [KeySeg.num i]

/-- Cached infinite-query data as TanStack stores it for
`useInfiniteResources` (`{ pages, pageParams }`). -/
structure InfiniteData where
  pages : List (ListResponse Resource Nat)
  pageParams : List (Option Nat)
deriving DecidableEq, Repr

/-- A cached query value: plain list queries (`useResources`) hold
`Resource[]`; infinite queries hold `{ pages, pageParams }`. -/
inductive QueryData
  | resourceList (rs : List Resource)
  | infiniteList (d : InfiniteData)
deriving DecidableEq, Repr

/-- The query cache: entries keyed by query key.  A real client cache has
at most one entry per key; lemmas that need this take
`(c.map Prod.fst).Nodup`. -/
abbrev Cache := List (QueryKey × QueryData)

/-- TanStack Query key matching: a filter `{ queryKey: pre }` matches every
cached entry whose key starts with `pre` segment-by-segment. -/
def keyMatches (pre k : QueryKey) : Bool := pre.isPrefixOf k

/-- `queryClient.getQueriesData({ queryKey: pre })`: the `[key, data]` pairs
of all matching entries. -/
def getQueriesData (c : Cache) (pre : QueryKey) : List (QueryKey × QueryData) :=
  c.filter (fun e => keyMatches pre e.1)

/-- `queryClient.setQueriesData({ queryKey: pre }, f)`: applies the updater
to every matching entry. -/
def setQueriesData (c : Cache) (pre : QueryKey) (f : QueryData → QueryData) :
    Cache :=
  c.map (fun e => if keyMatches pre e.1 then (e.1, f e.2) else e)

/-- `queryClient.setQueryData(k, v)`: writes one entry.  (The library would
insert a missing key; every use below — the rollback loop — writes keys that
were snapshotted from the cache, so update-in-place is the exercised
behavior.) -/
def setQueryData (c : Cache) (k : QueryKey) (v : QueryData) : Cache :=
  c.map (fun e => if e.1 = k then (e.1, v) else e)

/-! ### Optimistic mutation coordinator (`useUpdateResourceStatus`) -/

/-- Variables of the status mutation (`{ resourceId, status }`). -/
structure MutationVars where
  resourceId : Nat
  status : ResourceStatus
deriving DecidableEq, Repr

/-- The per-item speculative transform from `useResources.ts` lines 155-159:
`resource.id === variables.resourceId ? { ...resource, status, updatedAt: now } : resource`. -/
def optimisticPatchOne (vars : MutationVars) (now : Nat) (r : Resource) :
    Resource :=
  if r.id = vars.resourceId then
    { r with status := vars.status, updatedAt := now }
  else r

/-- The updater passed to `setQueriesData` (lines 152-160): maps the patch
over a cached `Resource[]`.  Entries under the `lists()` prefix always hold
resource arrays; the identity branch (infinite-list data) is unreachable
there because the infinite key `['resources','infinite',pageSize]` does not
extend `['resources','list']`. -/
def optimisticUpdate (vars : MutationVars) (now : Nat) : QueryData → QueryData
  | QueryData.resourceList rs =>
      QueryData.resourceList (rs.map (optimisticPatchOne vars now))
  | d => d

/-- Cache operations issued by the mutation lifecycle, in issue order. -/
inductive CacheOp
  | cancelQueries (k : QueryKey)
  | snapshot (k : QueryKey)
  | applyPatch (k : QueryKey)
  | restoreEntry (k : QueryKey)
  | invalidateQueries (k : QueryKey)
deriving DecidableEq, Repr

/-- Cache state between `onMutate` and settlement of the network call: the
optimistic patch has been applied to every entry matching
`resourceKeys.lists()`. -/
def inFlightCache (c : Cache) (vars : MutationVars) (now : Nat) : Cache :=
  setQueriesData c resourceKeys.lists (optimisticUpdate vars now)

/-- The `onError` rollback loop (lines 168-174):
`context.previousResources.forEach(([queryKey, data]) => queryClient.setQueryData(queryKey, data))`. -/
def restoreAll (snap : List (QueryKey × QueryData)) (c : Cache) : Cache :=
  snap.foldl (fun acc e => setQueryData acc e.1 e.2) c

/-- The mock server's response to `updateResourceStatus` (lines 83-97): a
resource with the requested id and status and a fresh `updatedAt` (the other
fields come from a generated placeholder). -/
def serverResource (vars : MutationVars) (now : Nat) : Resource :=
  { mkRes 0 with id := vars.resourceId, status := vars.status, updatedAt := now }

/-- One full run of the `useUpdateResourceStatus` mutation
(`useResources.ts` lines 132-183) against cache `c`, with the network
outcome given by `fails`.  Returns the final cache, the surfaced result, and
the trace of cache operations in issue order:
`onMutate` awaits `cancelQueries(resourceKeys.all)`, snapshots
`getQueriesData(lists())`, applies the optimistic patch via
`setQueriesData(lists())`; `onError` restores every snapshotted entry;
`onSettled` — on success and failure alike — calls
`invalidateQueries(resourceKeys.all)` (invalidation marks entries stale and
does not rewrite their data, so it appears in the trace only). -/
def runUpdateResourceStatus (c : Cache) (vars : MutationVars) (now : Nat)
    (fails : Bool) : Cache × Except String Resource × List CacheOp :=
  let snap := getQueriesData c resourceKeys.lists
  let c1 := inFlightCache c vars now
  let preOps : List CacheOp :=
    [CacheOp.cancelQueries resourceKeys.all,
     CacheOp.snapshot resourceKeys.lists,
     CacheOp.applyPatch resourceKeys.lists]
  if fails then
    (restoreAll snap c1, Except.error "mutation failed",
      preOps ++ snap.map (fun e => CacheOp.restoreEntry e.1)
        ++ [CacheOp.invalidateQueries resourceKeys.all])
  else
    (c1, Except.ok (serverResource vars now),
      preOps ++ [CacheOp.invalidateQueries resourceKeys.all])

/-! ### Rollback lemmas -/

/-- Net effect on one entry of replaying a list of `setQueryData` writes:
the last write whose key matches wins, else the original value stays. -/
def applyWrites (snap : List (QueryKey × QueryData)) (k : QueryKey)
    (v : QueryData) : QueryData :=
  snap.foldl (fun acc e => if e.1 = k then e.2 else acc) v

lemma restoreAll_eq_map (snap : List (QueryKey × QueryData)) :
    ∀ c : Cache, restoreAll snap c
      = c.map (fun e => (e.1, applyWrites snap e.1 e.2)) := by
  induction snap with
  | nil =>
    intro c
    show c = c.map fun e => (e.1, e.2)
    conv_lhs => rw [← List.map_id c]
    exact List.map_congr_left (fun e _ => (Prod.mk.eta).symm)
  | cons a s ih =>
    intro c
    show restoreAll s (setQueryData c a.1 a.2) = _
    rw [ih, setQueryData, List.map_map]
    apply List.map_congr_left
    intro e _
    by_cases h : e.1 = a.1
    · simp only [Function.comp, if_pos h]
      show (e.1, applyWrites s e.1 a.2) = (e.1, applyWrites (a :: s) e.1 e.2)
      have : applyWrites (a :: s) e.1 e.2 = applyWrites s e.1 a.2 := by
        show applyWrites s e.1 (if a.1 = e.1 then a.2 else e.2) = _
        rw [if_pos h.symm]
      rw [this]
    · simp only [Function.comp, if_neg h]
      show (e.1, applyWrites s e.1 e.2) = (e.1, applyWrites (a :: s) e.1 e.2)
      have : applyWrites (a :: s) e.1 e.2 = applyWrites s e.1 e.2 := by
        show applyWrites s e.1 (if a.1 = e.1 then a.2 else e.2) = _
        rw [if_neg (fun hh => h hh.symm)]
      rw [this]

lemma applyWrites_of_not_mem (snap : List (QueryKey × QueryData))
    (k : QueryKey) (v : QueryData) (h : ∀ e ∈ snap, e.1 ≠ k) :
    applyWrites snap k v = v := by
  induction snap generalizing v with
  | nil => rfl
  | cons a s ih =>
    show applyWrites s k (if a.1 = k then a.2 else v) = v
    rw [if_neg (h a (List.mem_cons_self _ _))]
    exact ih v (fun e he => h e (List.mem_cons_of_mem _ he))

lemma applyWrites_of_mem (snap : List (QueryKey × QueryData))
    (k : QueryKey) (w : QueryData) (v : QueryData)
    (hnd : (snap.map Prod.fst).Nodup) (hm : (k, w) ∈ snap) :
    applyWrites snap k v = w := by
  induction snap generalizing v with
  | nil => cases hm
  | cons a s ih =>
    rw [List.map_cons, List.nodup_cons] at hnd
    rcases List.mem_cons.mp hm with h1 | h1
    · show applyWrites s k (if a.1 = k then a.2 else v) = w
      rw [← h1, if_pos rfl]
      apply applyWrites_of_not_mem
      intro e he heq
      apply hnd.1
      rw [← h1]
      have hin : e.1 ∈ List.map Prod.fst s := List.mem_map_of_mem Prod.fst he
      rw [heq] at hin
      exact hin
    · show applyWrites s k (if a.1 = k then a.2 else v) = w
      have hak : a.1 ≠ k := by
        intro hh
        apply hnd.1
        rw [hh]
        exact List.mem_map_of_mem Prod.fst h1
      rw [if_neg hak]
      exact ih v hnd.2 h1

/-- Rolling the snapshot back over the optimistically patched cache restores
the original cache exactly (the snapshot covers precisely the entries the
patch touched, and untouched entries were never modified). -/
lemma rollback_restores (c : Cache) (vars : MutationVars) (now : Nat)
    (hnd : (c.map Prod.fst).Nodup) :
    restoreAll (getQueriesData c resourceKeys.lists)
      (inFlightCache c vars now) = c := by
  rw [inFlightCache, setQueriesData, restoreAll_eq_map, List.map_map]
  refine Eq.trans (List.map_congr_left ?_) (List.map_id c)
  intro e he
  have hsnapnd : ((getQueriesData c resourceKeys.lists).map Prod.fst).Nodup :=
    List.Nodup.sublist ((List.filter_sublist c).map Prod.fst) hnd
  by_cases h : keyMatches resourceKeys.lists e.1 = true
  · simp only [Function.comp, if_pos h]
    have hmem : (e.1, e.2) ∈ getQueriesData c resourceKeys.lists := by
      rw [getQueriesData]
      exact List.mem_filter.mpr ⟨Prod.mk.eta ▸ he, h⟩
    show (e.1, applyWrites (getQueriesData c resourceKeys.lists) e.1
      (optimisticUpdate vars now e.2)) = e
    rw [applyWrites_of_mem _ _ _ _ hsnapnd hmem]
  · simp only [Function.comp, if_neg h]
    have hnomem : ∀ e' ∈ getQueriesData c resourceKeys.lists, e'.1 ≠ e.1 := by
      intro e' he' heq
      have hp := (List.mem_filter.mp he').2
      rw [heq] at hp
      exact h hp
    show (e.1, applyWrites (getQueriesData c resourceKeys.lists) e.1 e.2) = e
    rw [applyWrites_of_not_mem _ _ _ hnomem]

/-! ### Concrete filter fixtures -/

/-- The default filter object (everything `'ALL'`, empty search). -/
def fAll : TableFilters :=
  { search := ""
    status := FilterValue.ALL
    department := FilterValue.ALL
    provider := FilterValue.ALL
    dateRange := { rangeFrom := none, rangeTo := none } }

/-- Filters selecting `status: ACTIVE`. -/
def fActive : TableFilters := { fAll with status := FilterValue.only ResourceStatus.ACTIVE }

/-- Filters selecting `status: IDLE`. -/
def fIdle : TableFilters := { fAll with status := FilterValue.only ResourceStatus.IDLE }

/-- C3: for every status-change mutation that fails, the cache after the
`onError` rollback is deep-equal to the cache captured immediately before
the optimistic update — the snapshot (`getQueriesData(lists())`) covers
exactly the entries the optimistic `setQueriesData(lists())` patch touched,
and restoring each snapshotted entry verbatim recovers the whole
pre-mutation cache (entries off the `lists()` prefix were never modified). -/
theorem c3_rollback_deep_equal (c : Cache) (vars : MutationVars) (now : Nat)
    (hnd : (c.map Prod.fst).Nodup) :
    (runUpdateResourceStatus c vars now true).1 = c := by
  show restoreAll (getQueriesData c resourceKeys.lists)
    (inFlightCache c vars now) = c
  exact rollback_restores c vars now hnd

/-- Witness for C3 on a two-entry cache (a filtered list entry and a detail
entry). -/
theorem c3_rollback_deep_equal_witness :
    (([(resourceKeys.list fActive, QueryData.resourceList [mkRes 1, mkRes 2]),
       (resourceKeys.detail 1, QueryData.resourceList [mkRes 1])] : Cache).map
        Prod.fst).Nodup ∧
    (runUpdateResourceStatus
        [(resourceKeys.list fActive, QueryData.resourceList [mkRes 1, mkRes 2]),
         (resourceKeys.detail 1, QueryData.resourceList [mkRes 1])]
        (MutationVars.mk 1 ResourceStatus.MAINTENANCE) 5 true).1
      = [(resourceKeys.list fActive, QueryData.resourceList [mkRes 1, mkRes 2]),
         (resourceKeys.detail 1, QueryData.resourceList [mkRes 1])] :=
  ⟨by decide, c3_rollback_deep_equal _ _ _ (by decide)⟩

/-- C4, counterexample: the claim says a failed mutation does **not**
invalidate the affected keys — but `onSettled` runs on failure too
("Always refetch after mutation", `useResources.ts` lines 179-182), so the
failure trace does contain `invalidateQueries(resourceKeys.all)`, whose
prefix covers every affected list key. -/
theorem c4_invalidate_on_failure_counterexample :
    CacheOp.invalidateQueries resourceKeys.all ∈
      (runUpdateResourceStatus
        [(resourceKeys.list fActive, QueryData.resourceList [mkRes 1])]
        (MutationVars.mk 1 ResourceStatus.MAINTENANCE) 5 true).2.2 ∧
    keyMatches resourceKeys.all resourceKeys.lists = true ∧
    keyMatches resourceKeys.all (resourceKeys.list fActive) = true := by
  decide

/-- C4, amended: on failure the coordinator restores every snapshotted cache
entry verbatim and surfaces the error to the caller; invalidation of the
affected keys (`invalidateQueries(resourceKeys.all)`, issued by `onSettled`)
happens regardless of outcome — after failure as well as after success — not
only on success. -/
theorem c4_failure_restores_and_always_invalidates (c : Cache)
    (vars : MutationVars) (now : Nat) (hnd : (c.map Prod.fst).Nodup) :
    (runUpdateResourceStatus c vars now true).1 = c ∧
    (runUpdateResourceStatus c vars now true).2.1
      = Except.error "mutation failed" ∧
    CacheOp.invalidateQueries resourceKeys.all
      ∈ (runUpdateResourceStatus c vars now true).2.2 ∧
    CacheOp.invalidateQueries resourceKeys.all
      ∈ (runUpdateResourceStatus c vars now false).2.2 := by
  refine ⟨?_, rfl, ?_, ?_⟩
  · show restoreAll (getQueriesData c resourceKeys.lists)
      (inFlightCache c vars now) = c
    exact rollback_restores c vars now hnd
  · show CacheOp.invalidateQueries resourceKeys.all ∈
      ([CacheOp.cancelQueries resourceKeys.all,
        CacheOp.snapshot resourceKeys.lists,
        CacheOp.applyPatch resourceKeys.lists]
        ++ (getQueriesData c resourceKeys.lists).map
            (fun e => CacheOp.restoreEntry e.1)
        ++ [CacheOp.invalidateQueries resourceKeys.all])
    simp
  · show CacheOp.invalidateQueries resourceKeys.all ∈
      ([CacheOp.cancelQueries resourceKeys.all,
        CacheOp.snapshot resourceKeys.lists,
        CacheOp.applyPatch resourceKeys.lists]
        ++ [CacheOp.invalidateQueries resourceKeys.all])
    simp

/-- Witness for C4's amended statement on a one-entry cache. -/
theorem c4_failure_restores_and_always_invalidates_witness :
    (([(resourceKeys.list fIdle, QueryData.resourceList [mkRes 3])] : Cache).map
        Prod.fst).Nodup ∧
    ((runUpdateResourceStatus
        [(resourceKeys.list fIdle, QueryData.resourceList [mkRes 3])]
        (MutationVars.mk 3 ResourceStatus.ACTIVE) 7 true).1
      = [(resourceKeys.list fIdle, QueryData.resourceList [mkRes 3])] ∧
     (runUpdateResourceStatus
        [(resourceKeys.list fIdle, QueryData.resourceList [mkRes 3])]
        (MutationVars.mk 3 ResourceStatus.ACTIVE) 7 true).2.1
      = Except.error "mutation failed" ∧
     CacheOp.invalidateQueries resourceKeys.all
      ∈ (runUpdateResourceStatus
          [(resourceKeys.list fIdle, QueryData.resourceList [mkRes 3])]
          (MutationVars.mk 3 ResourceStatus.ACTIVE) 7 true).2.2 ∧
     CacheOp.invalidateQueries resourceKeys.all
      ∈ (runUpdateResourceStatus
          [(resourceKeys.list fIdle, QueryData.resourceList [mkRes 3])]
          (MutationVars.mk 3 ResourceStatus.ACTIVE) 7 false).2.2) :=
  ⟨by decide, c4_failure_restores_and_always_invalidates _ _ _ (by decide)⟩

/-- C5: in every execution of the status mutation — whatever the cache, the
variables, the clock and the outcome — the cancellation of in-flight
refetches (`await queryClient.cancelQueries`, `useResources.ts` line 144) is
issued strictly before the optimistic patch (`setQueriesData`, line 152) in
the operation trace; the patch never precedes the cancel. -/
theorem c5_cancel_issued_before_patch (c : Cache) (vars : MutationVars)
    (now : Nat) (fails : Bool) :
    ((runUpdateResourceStatus c vars now fails).2.2).indexOf
        (CacheOp.cancelQueries resourceKeys.all)
      < ((runUpdateResourceStatus c vars now fails).2.2).indexOf
        (CacheOp.applyPatch resourceKeys.lists) := by
  cases fails
  · have htrace : (runUpdateResourceStatus c vars now false).2.2
        = CacheOp.cancelQueries resourceKeys.all
          :: CacheOp.snapshot resourceKeys.lists
          :: CacheOp.applyPatch resourceKeys.lists
          :: [CacheOp.invalidateQueries resourceKeys.all] := rfl
    rw [htrace, List.indexOf_cons_self,
      List.indexOf_cons_ne _ (by decide), List.indexOf_cons_ne _ (by decide),
      List.indexOf_cons_self]
    omega
  · have htrace : (runUpdateResourceStatus c vars now true).2.2
        = CacheOp.cancelQueries resourceKeys.all
          :: CacheOp.snapshot resourceKeys.lists
          :: CacheOp.applyPatch resourceKeys.lists
          :: ((getQueriesData c resourceKeys.lists).map
                (fun e => CacheOp.restoreEntry e.1)
              ++ [CacheOp.invalidateQueries resourceKeys.all]) := rfl
    rw [htrace, List.indexOf_cons_self,
      List.indexOf_cons_ne _ (by decide), List.indexOf_cons_ne _ (by decide),
      List.indexOf_cons_self]
    omega

/-- C8: immediately after `onMutate` and before the network call resolves,
every cached list entry (every entry under the `lists()` prefix) holds the
patched resource array, and the patch gives every row with the target id the
speculative status and the refreshed `updatedAt` clock value. -/
theorem c8_optimistic_visibility (c : Cache) (vars : MutationVars) (now : Nat)
    (k : QueryKey) (rs : List Resource)
    (hk : keyMatches resourceKeys.lists k = true)
    (hmem : (k, QueryData.resourceList rs) ∈ c) :
    (k, QueryData.resourceList (rs.map (optimisticPatchOne vars now)))
        ∈ inFlightCache c vars now ∧
    ∀ r ∈ rs, r.id = vars.resourceId →
      (optimisticPatchOne vars now r).status = vars.status ∧
      (optimisticPatchOne vars now r).updatedAt = now := by
  constructor
  · have hmap := List.mem_map_of_mem
      (fun e : QueryKey × QueryData =>
        if keyMatches resourceKeys.lists e.1 then
          (e.1, optimisticUpdate vars now e.2)
        else e) hmem
    rw [inFlightCache, setQueriesData]
    simpa [hk, optimisticUpdate] using hmap
  · intro r _ hr
    constructor <;> simp [optimisticPatchOne, hr]

/-- Witness for C8 on a one-entry cache holding the target resource. -/
theorem c8_optimistic_visibility_witness :
    keyMatches resourceKeys.lists (resourceKeys.list fActive) = true ∧
    (resourceKeys.list fActive, QueryData.resourceList [mkRes 1])
      ∈ ([(resourceKeys.list fActive, QueryData.resourceList [mkRes 1])] : Cache) ∧
    ((resourceKeys.list fActive, QueryData.resourceList
        ([mkRes 1].map (optimisticPatchOne
          (MutationVars.mk 1 ResourceStatus.MAINTENANCE) 9)))
        ∈ inFlightCache
            [(resourceKeys.list fActive, QueryData.resourceList [mkRes 1])]
            (MutationVars.mk 1 ResourceStatus.MAINTENANCE) 9 ∧
      ∀ r ∈ [mkRes 1],
        r.id = (MutationVars.mk 1 ResourceStatus.MAINTENANCE).resourceId →
        (optimisticPatchOne (MutationVars.mk 1 ResourceStatus.MAINTENANCE) 9 r).status
            = (MutationVars.mk 1 ResourceStatus.MAINTENANCE).status ∧
        (optimisticPatchOne (MutationVars.mk 1 ResourceStatus.MAINTENANCE) 9 r).updatedAt
            = 9) :=
  ⟨by decide, by decide,
    c8_optimistic_visibility _ _ _ _ _ (by decide) (by decide)⟩

/-! ### Filter independence (C9).  `getElem?` is written in function form
throughout this section. -/

/-- A resource row with id 2 and status IDLE. -/
def rIdle2 : Resource := { mkRes 2 with status := ResourceStatus.IDLE }

/-- The two-entry cache used by the C9 counterexample: the resource with
id 1 (status ACTIVE) cached both under the default `ALL` filter and under
the `status: ACTIVE` filter — both entries satisfy their filters. -/
def crossFilterCache : Cache :=
  [(resourceKeys.list fAll, QueryData.resourceList [mkRes 1]),
   (resourceKeys.list fActive, QueryData.resourceList [mkRes 1])]

/-- C9, counterexample: cache entries under different filter keys are *not*
entirely independent under mutation — the optimistic patch is applied to
every entry matching `lists()` regardless of its filter segment.  A status
mutation targeting the row of the `ALL` session rewrites the `ACTIVE`
session's entry too. -/
theorem c9_cross_filter_patch_counterexample :
    fAll ≠ fActive ∧
    getElem? crossFilterCache 1
      = some (resourceKeys.list fActive, QueryData.resourceList [mkRes 1]) ∧
    getElem? (inFlightCache crossFilterCache
        (MutationVars.mk 1 ResourceStatus.MAINTENANCE) 7) 1
      ≠ some (resourceKeys.list fActive, QueryData.resourceList [mkRes 1]) := by
  decide

/-- C9, amended: loading (writing) a session under one filter key never
alters the entry under a different filter key, and the optimistic status
patch — although applied to every cached list entry — leaves an entry
unchanged whenever it holds no row with the target id.  In particular, a
`status: ACTIVE` session is unaffected by loading or by mutating a row of a
`status: IDLE` session, provided each session's rows satisfy its filter and
rows agree across entries (same id ⇒ same row). -/
theorem c9_filter_sessions_independent_amended
    (c : Cache) (fA fI : TableFilters) (rsA rsI : List Resource)
    (vars : MutationVars) (now : Nat) (v : QueryData) (i : Nat)
    (hne : fA ≠ fI)
    (hA : ∀ r ∈ rsA, r.status = ResourceStatus.ACTIVE)
    (hI : ∀ r ∈ rsI, r.status = ResourceStatus.IDLE)
    (htarget : ∃ r ∈ rsI, r.id = vars.resourceId)
    (hcons : ∀ rA ∈ rsA, ∀ rI ∈ rsI, rA.id = rI.id → rA = rI)
    (hi : getElem? c i
      = some (resourceKeys.list fA, QueryData.resourceList rsA)) :
    getElem? (setQueryData c (resourceKeys.list fI) v) i = getElem? c i ∧
    getElem? (inFlightCache c vars now) i = getElem? c i := by
  obtain ⟨rI, hrI, hrIid⟩ := htarget
  have hAid : ∀ rA ∈ rsA, rA.id ≠ vars.resourceId := by
    intro rA hrA heq
    have hEqRow := hcons rA hrA rI hrI (heq.trans hrIid.symm)
    have h1 := hA rA hrA
    have h2 := hI rI hrI
    rw [hEqRow] at h1
    exact absurd (h1.symm.trans h2) (by decide)
  have hkey : resourceKeys.list fA ≠ resourceKeys.list fI := by
    intro hh
    apply hne
    simpa [resourceKeys.list, resourceKeys.lists, resourceKeys.all] using hh
  have hpatch : optimisticUpdate vars now (QueryData.resourceList rsA)
      = QueryData.resourceList rsA := by
    simp only [optimisticUpdate]
    congr 1
    refine Eq.trans (List.map_congr_left ?_) (List.map_id rsA)
    intro r hr
    show optimisticPatchOne vars now r = id r
    simp only [optimisticPatchOne, if_neg (hAid r hr), id]
  constructor
  · rw [setQueryData, List.getElem?_map, hi, Option.map_some']
    rw [if_neg hkey]
  · rw [inFlightCache, setQueriesData, List.getElem?_map, hi, Option.map_some']
    have hm : keyMatches resourceKeys.lists (resourceKeys.list fA) = true := by
      rw [keyMatches, resourceKeys.list]
      exact List.isPrefixOf_iff_prefix.mpr (List.prefix_append _ _)
    rw [if_pos hm, hpatch]

/-- The two-session cache used by the C9 witness: an `ACTIVE` session and an
`IDLE` session with disjoint rows. -/
def twoSessionCache : Cache :=
  [(resourceKeys.list fActive, QueryData.resourceList [mkRes 1]),
   (resourceKeys.list fIdle, QueryData.resourceList [rIdle2])]

/-- Witness for C9's amended statement: mutating the `IDLE` session's row
(and loading into the `IDLE` key) leaves the `ACTIVE` session's entry
unchanged. -/
theorem c9_filter_sessions_independent_amended_witness :
    (fActive ≠ fIdle ∧
      (∀ r ∈ [mkRes 1], r.status = ResourceStatus.ACTIVE) ∧
      (∀ r ∈ [rIdle2], r.status = ResourceStatus.IDLE) ∧
      (∃ r ∈ [rIdle2],
        r.id = (MutationVars.mk 2 ResourceStatus.MAINTENANCE).resourceId) ∧
      (∀ rA ∈ [mkRes 1], ∀ rI ∈ [rIdle2], rA.id = rI.id → rA = rI) ∧
      getElem? twoSessionCache 0
        = some (resourceKeys.list fActive, QueryData.resourceList [mkRes 1])) ∧
    getElem? (setQueryData twoSessionCache (resourceKeys.list fIdle)
        (QueryData.resourceList [])) 0
      = getElem? twoSessionCache 0 ∧
    getElem? (inFlightCache twoSessionCache
        (MutationVars.mk 2 ResourceStatus.MAINTENANCE) 11) 0
      = getElem? twoSessionCache 0 :=
  ⟨⟨by decide, by decide, by decide, by decide, by decide, by decide⟩,
    (c9_filter_sessions_independent_amended twoSessionCache fActive fIdle
      [mkRes 1] [rIdle2] (MutationVars.mk 2 ResourceStatus.MAINTENANCE) 11
      (QueryData.resourceList []) 0
      (by decide) (by decide) (by decide) (by decide) (by decide)
      (by decide)).1,
    (c9_filter_sessions_independent_amended twoSessionCache fActive fIdle
      [mkRes 1] [rIdle2] (MutationVars.mk 2 ResourceStatus.MAINTENANCE) 11
      (QueryData.resourceList []) 0
      (by decide) (by decide) (by decide) (by decide) (by decide)
      (by decide)).2⟩

/-! ### Flattening (C6) -/

/-- The exposed flattened list from `useInfiniteResources.ts` lines 108-115:
`query.data?.pages.flatMap((page) => page.data) ?? []` — a pure function of
the cached infinite-query data. -/
def allResources (d : Option InfiniteData) : List Resource :=
  (d.map (fun q => q.pages.flatMap ListResponse.data)).getD []

/-- Modelled from the spec (§4.3 flattening, §8 flattening determinism): the
concatenation of each page's item array, in load order. -/
def concatInLoadOrder (pages : List (ListResponse Resource Nat)) :
    List Resource :=
  pages.foldl (fun acc p => acc ++ p.data) []

lemma foldl_append_data (pages : List (ListResponse Resource Nat)) :
    ∀ init, pages.foldl (fun acc p => acc ++ p.data) init
      = init ++ pages.flatMap ListResponse.data := by
  induction pages with
  | nil => intro init; simp
  | cons p ps ih =>
    intro init
    rw [List.foldl_cons, ih, List.flatMap_cons, List.append_assoc]

/-- C6: for every number of pages n ≥ 0 (and whatever the stored page
params), the exposed flattened resource list equals the concatenation of the
pages' data arrays in load order; with no cached data it is empty.
`allResources` is by construction a pure function of the cached pages — it
is recomputed from the cache value, not patched incrementally. -/
theorem c6_flattening_deterministic (pages : List (ListResponse Resource Nat))
    (params : List (Option Nat)) :
    allResources (some (InfiniteData.mk pages params)) = concatInLoadOrder pages
      ∧ allResources none = [] := by
  constructor
  · show pages.flatMap ListResponse.data = concatInLoadOrder pages
    rw [concatInLoadOrder, foldl_append_data, List.nil_append]
  · rfl

/-! ### Infinite-scroll trigger (C7) -/

/-- One entry delivered to an `IntersectionObserver` callback. -/
structure ObserverEntry where
  isIntersecting : Bool
deriving DecidableEq, Repr

/-- Per-session loading state as seen by the trigger: the query's
`hasNextPage` / `isFetchingNextPage` flags, the number of page loads
currently in flight, and a counter of network calls issued. -/
structure TriggerState where
  hasNextPage : Bool
  isFetchingNextPage : Bool
  inFlight : Nat
  callsIssued : Nat
deriving DecidableEq, Repr

/-- Issuing `fetchNextPage()`: the query client marks the query as fetching
and issues one page request. -/
def fetchNextPage (s : TriggerState) : TriggerState :=
  { s with
    isFetchingNextPage := true
    inFlight := s.inFlight + 1
    callsIssued := s.callsIssued + 1 }

/-- The observer callback from `useInfiniteScrollTrigger`
(`useInfiniteResources.ts` lines 158-170): only the head entry of the batch
is examined (`const [entry] = entries`), and `fetchNextPage()` is called
only when it intersects, `hasNextPage` holds and no next-page fetch is in
flight (`entry?.isIntersecting && hasNextPage && !isFetchingNextPage`). -/
def observerCallback (entries : List ObserverEntry) (s : TriggerState) :
    TriggerState :=
  match entries with
  | entry :: _ =>
    if entry.isIntersecting && s.hasNextPage && !s.isFetchingNextPage then
      fetchNextPage s
    else s
  | [] => s

/-- Events of one list session: a visibility notification batch, or the
settling of the outstanding page load (reporting whether more pages
remain).  Per the single-threaded event model (spec §5), each event is
processed to completion — state updated by one event is visible to the
next. -/
inductive ScrollEvent
  | notify (entries : List ObserverEntry)
  | settle (hasNext : Bool)
deriving DecidableEq, Repr

/-- Event step of the trigger state machine. -/
def stepTrigger (s : TriggerState) : ScrollEvent → TriggerState
  | ScrollEvent.notify es => observerCallback es s
  | ScrollEvent.settle hn =>
    { s with
      isFetchingNextPage := false
      inFlight := s.inFlight - 1
      hasNextPage := hn }

/-- Processing a sequence of events. -/
def runTrigger (s : TriggerState) (evs : List ScrollEvent) : TriggerState :=
  evs.foldl stepTrigger s

/-- Trigger invariant: at most one page load is in flight, and the
`isFetchingNextPage` flag tracks it exactly. -/
def TriggerInv (s : TriggerState) : Prop :=
  s.inFlight ≤ 1 ∧ (s.isFetchingNextPage = true ↔ s.inFlight = 1)

lemma stepTrigger_inv (s : TriggerState) (ev : ScrollEvent)
    (h : TriggerInv s) : TriggerInv (stepTrigger s ev) := by
  obtain ⟨h1, h2⟩ := h
  cases ev with
  | notify es =>
    cases es with
    | nil => exact ⟨h1, h2⟩
    | cons e es' =>
      show TriggerInv (observerCallback (e :: es') s)
      rw [observerCallback]
      by_cases hc :
          (e.isIntersecting && s.hasNextPage && !s.isFetchingNextPage) = true
      · rw [if_pos hc]
        have hf : s.isFetchingNextPage = false := by
          cases hb : s.isFetchingNextPage
          · rfl
          · rw [hb] at hc
            simp at hc
        have hn1 : s.inFlight ≠ 1 := by
          intro hone
          have hft := h2.mpr hone
          rw [hf] at hft
          exact absurd hft (by decide)
        have hifz : s.inFlight = 0 := by omega
        refine ⟨?_, ?_⟩
        · show s.inFlight + 1 ≤ 1
          omega
        · show true = true ↔ s.inFlight + 1 = 1
          constructor
          · intro _
            omega
          · intro _
            rfl
      · rw [if_neg hc]
        exact ⟨h1, h2⟩
  | settle hn =>
    refine ⟨by show s.inFlight - 1 ≤ 1 ; omega, ?_⟩
    show false = true ↔ s.inFlight - 1 = 1
    constructor
    · intro hft
      exact absurd hft (by decide)
    · intro hone
      exact absurd hone (by omega)

lemma runTrigger_inv (s : TriggerState) (evs : List ScrollEvent)
    (h : TriggerInv s) : TriggerInv (runTrigger s evs) := by
  induction evs generalizing s with
  | nil => exact h
  | cons e t ih => exact ih (stepTrigger s e) (stepTrigger_inv s e h)

/-- C7: from a state with `hasNextPage = true` and no fetch in flight, two
visibility notifications in immediate succession (without awaiting the
first) issue exactly one network call — the second notification is stopped
by the `!isFetchingNextPage` guard; and along every event sequence of the
session the invariant holds that at most one page load is in flight at a
time.  (A notification batch itself can trigger at most one call, since the
callback reads only the head entry.) -/
theorem c7_single_inflight_load (s : TriggerState) (evs : List ScrollEvent)
    (hinv : TriggerInv s) (hnext : s.hasNextPage = true)
    (hidle : s.isFetchingNextPage = false) :
    (observerCallback [ObserverEntry.mk true]
        (observerCallback [ObserverEntry.mk true] s)).callsIssued
      = s.callsIssued + 1 ∧
    TriggerInv (runTrigger s evs) ∧ (runTrigger s evs).inFlight ≤ 1 := by
  refine ⟨?_, runTrigger_inv s evs hinv, (runTrigger_inv s evs hinv).1⟩
  have hc1 : ((ObserverEntry.mk true).isIntersecting && s.hasNextPage
      && !s.isFetchingNextPage) = true := by
    rw [hnext, hidle]
    rfl
  have hstep1 : observerCallback [ObserverEntry.mk true] s = fetchNextPage s := by
    rw [observerCallback, if_pos hc1]
  rw [hstep1]
  have hc2 : ((ObserverEntry.mk true).isIntersecting
      && (fetchNextPage s).hasNextPage
      && !(fetchNextPage s).isFetchingNextPage) = false := by
    show (true && s.hasNextPage && !true) = false
    simp
  rw [observerCallback, if_neg (by rw [hc2]; exact Bool.false_ne_true)]
  rfl

/-- Witness for C7 from the idle initial state, with a double notification
followed by a settle. -/
theorem c7_single_inflight_load_witness :
    TriggerInv (TriggerState.mk true false 0 0) ∧
    ((observerCallback [ObserverEntry.mk true]
        (observerCallback [ObserverEntry.mk true]
          (TriggerState.mk true false 0 0))).callsIssued
        = (TriggerState.mk true false 0 0).callsIssued + 1 ∧
      TriggerInv (runTrigger (TriggerState.mk true false 0 0)
        [ScrollEvent.notify [ObserverEntry.mk true],
         ScrollEvent.notify [ObserverEntry.mk true],
         ScrollEvent.settle true]) ∧
      (runTrigger (TriggerState.mk true false 0 0)
        [ScrollEvent.notify [ObserverEntry.mk true],
         ScrollEvent.notify [ObserverEntry.mk true],
         ScrollEvent.settle true]).inFlight ≤ 1) :=
  ⟨⟨by decide, by decide⟩,
    c7_single_inflight_load (TriggerState.mk true false 0 0)
      [ScrollEvent.notify [ObserverEntry.mk true],
       ScrollEvent.notify [ObserverEntry.mk true],
       ScrollEvent.settle true]
      ⟨by decide, by decide⟩ rfl rfl⟩
